import Mathlib

/-!
Verification development for the Argos source-ingestion pipeline.

The persistence layer is embedded from
`src/supabase/migrations/001_create_sources_articles.sql` (the `articles`
table with its `UNIQUE(user_id, url)` constraint and the `search_articles`
helper function).  The in-process pipeline components (SSRF guard, rate
limiter, fetchers, orchestrator) live in the backend service layer that is
not part of the checked-in sources; those are modelled from the
specification, as marked on each definition.
-/

namespace Argos

/-! ## Persistence model: the `articles` table

Embedded from `001_create_sources_articles.sql`, table `public.articles`:
`id`, `source_id` (nullable reference), `user_id` (not null), `title`
(not null), `content` (nullable), `url` (nullable), plus the constraint
`UNIQUE(user_id, url)`.  Identifiers are modelled as naturals. -/

structure ArticleRow where
  id : Nat
  source_id : Option Nat
  user_id : Nat
  title : String
  content : Option String
  url : Option String
  author : Option String
  deriving Repr, DecidableEq

/-- PostgreSQL `UNIQUE(user_id, url)` semantics: two rows conflict when
their `user_id` columns are equal and their `url` columns are equal and
non-null.  Null `url` values never conflict (SQL `NULL` is distinct from
every value, including another `NULL`). -/
def urlConflict (a b : ArticleRow) : Bool :=
  a.user_id == b.user_id && a.url.isSome && a.url == b.url

inductive InsertResult where
  | inserted
  | uniqueViolation
  deriving Repr, DecidableEq

/-- An `INSERT` into `public.articles`: the storage-level unique
constraint checks the whole stored table atomically and either appends
the row or raises a unique violation. -/
def insertArticle (table : List ArticleRow) (a : ArticleRow) :
    List ArticleRow × InsertResult :=
  if table.any (fun b => urlConflict a b) then (table, .uniqueViolation)
  else (table ++ [a], .inserted)

/-- A serialized sequence of insert attempts against the store.  Any set
of concurrent attempts is serialized by the storage engine into some such
sequence, each individual insert being atomic. -/
def insertAll (table : List ArticleRow) (as : List ArticleRow) :
    List ArticleRow :=
  as.foldl (fun t a => (insertArticle t a).1) table

/-- The table invariant maintained by `UNIQUE(user_id, url)`: no two
stored rows conflict. -/
def articlesInvariant (table : List ArticleRow) : Prop :=
  List.Pairwise (fun a b => urlConflict a b = false) table

instance (table : List ArticleRow) : Decidable (articlesInvariant table) :=
  inferInstanceAs (Decidable (List.Pairwise _ table))

/-- Number of stored rows carrying a given (owner, non-null canonical URL)
dedup key. -/
def countKey (table : List ArticleRow) (uid : Nat) (u : String) : Nat :=
  (table.filter (fun r => r.user_id == uid && r.url == some u)).length

/-! ## Persistence model: the `search_articles` helper

Embedded from `001_create_sources_articles.sql`, function
`search_articles(search_query, p_user_id, p_limit, p_offset)`:

```
SELECT ... FROM public.articles a
WHERE a.user_id = p_user_id
  AND a.search_vector @@ websearch_to_tsquery('french', search_query)
ORDER BY rank DESC LIMIT p_limit OFFSET p_offset
```

The text-search engine internals (`@@` matching against the generated
`search_vector`, and `ts_rank`) are engine built-ins; they enter the model
as parameters `matchesQuery` and `rank`. -/

def search_articles (matchesQuery : ArticleRow → Bool) (rank : ArticleRow → Int)
    (table : List ArticleRow) (p_user_id : Nat) (p_limit p_offset : Nat) :
    List ArticleRow :=
  ((((table.filter (fun a => a.user_id == p_user_id && matchesQuery a)).mergeSort
      (fun a b => rank b ≤ rank a)).drop p_offset).take p_limit)

/-! ## SSRF Guard model

Modelled from the spec: the backend URL validator
(`backend/app/utils/url_validator.py`) is referenced by the repository's
handoff notes but is not among the checked-in sources; the definitions
below follow spec §4.4 word for word.  IPv4 addresses are 32-bit
naturals. -/

/-- Value of the dotted-quad IPv4 address `a.b.c.d`. -/
def ipv4 (a b c d : Nat) : Nat := ((a * 256 + b) * 256 + c) * 256 + d

/-- Private ranges: 10.0.0.0/8, 172.16.0.0/12, 192.168.0.0/16. -/
def isPrivateIp (ip : Nat) : Bool :=
  (ipv4 10 0 0 0 ≤ ip && ip < ipv4 11 0 0 0) ||
  (ipv4 172 16 0 0 ≤ ip && ip < ipv4 172 32 0 0) ||
  (ipv4 192 168 0 0 ≤ ip && ip < ipv4 192 169 0 0)

/-- Loopback range: 127.0.0.0/8. -/
def isLoopbackIp (ip : Nat) : Bool :=
  ipv4 127 0 0 0 ≤ ip && ip < ipv4 128 0 0 0

/-- Link-local range: 169.254.0.0/16. -/
def isLinkLocalIp (ip : Nat) : Bool :=
  ipv4 169 254 0 0 ≤ ip && ip < ipv4 169 255 0 0

/-- The well-known cloud-metadata endpoint 169.254.169.254. -/
def isMetadataIp (ip : Nat) : Bool := ip == ipv4 169 254 169 254

def isBlockedIp (ip : Nat) : Bool :=
  isPrivateIp ip || isLoopbackIp ip || isLinkLocalIp ip || isMetadataIp ip

/-- Modelled from the spec: only encrypted and plain web-transfer schemes
are permitted. -/
def allowedSchemes : List String := ["http", "https"]

structure UrlTarget where
  scheme : String
  host : String
  deriving Repr, DecidableEq

inductive GuardResult where
  | validated (pinnedAddresses : List Nat)
  | rejected (reason : String)
  deriving Repr, DecidableEq

/-- Modelled from the spec: the SSRF Guard state machine of §4.4 —
parse the target and reject disallowed schemes outright; resolve the
hostname to its IP address set and reject if any resolved address is
private, loopback, link-local, or cloud metadata; otherwise pin the
validated address set.  DNS is external, so the resolver is a
parameter. -/
def ssrfGuard (resolve : String → List Nat) (t : UrlTarget) : GuardResult :=
  if allowedSchemes.contains t.scheme then
    if (resolve t.host).any isBlockedIp then
      .rejected "resolved address in blocked range"
    else .validated (resolve t.host)
  else .rejected "disallowed scheme"

/-- Modelled from the spec: the connection step of a validated fetch
connects to one of the pinned, already-validated addresses; the resolver
available at connection time (a possibly different, post-validation DNS
answer) is never consulted. -/
def connectionAddress (resolveAtConnect : String → List Nat) (t : UrlTarget)
    (pinned : List Nat) : Option Nat :=
  pinned.head?

/-- Modelled from the spec: a complete guarded fetch — validate with the
DNS answer at validation time, then connect by pinned address.  Returns
the address actually used for the connection, or `none` on rejection. -/
def guardedFetch (resolveAtValidation resolveAtConnect : String → List Nat)
    (t : UrlTarget) : Option Nat :=
  match ssrfGuard resolveAtValidation t with
  | .rejected _ => none
  | .validated pinned => connectionAddress resolveAtConnect t pinned

/-! ## Rate Limiter model

Modelled from the spec: the in-memory rate limiter
(`backend/app/utils/rate_limiter.py`) is referenced by the repository's
handoff notes but is not among the checked-in sources; the definitions
below follow spec §4.5.  `Allow(key)` is one atomic step: it reads the
per-key last-attempt timestamp and, on admission, records the new
timestamp before returning.  Concurrent attempts therefore serialize into
some order of `allow` calls. -/

structure RateLimitState where
  lastAttempt : List (String × Nat)
  deriving Repr, DecidableEq

def lookupKey (st : RateLimitState) (key : String) : Option Nat :=
  (st.lastAttempt.find? (fun p => p.1 == key)).map Prod.snd

def recordAttempt (st : RateLimitState) (key : String) (now : Nat) :
    RateLimitState :=
  ⟨(key, now) :: st.lastAttempt.filter (fun p => !(p.1 == key))⟩

structure AllowDecision where
  allowed : Bool
  retryAfter : Option Nat
  deriving Repr, DecidableEq

/-- Modelled from the spec: `Allow(key)` returns permission plus, if
denied, a retry-after duration computed from the configured minimum
interval `minIv` for the key's source type; admission and timestamp
update are one atomic step. -/
def allow (minIv : Nat) (st : RateLimitState) (key : String) (now : Nat) :
    AllowDecision × RateLimitState :=
  match lookupKey st key with
  | some last =>
      if now < last + minIv then
        (⟨false, some (last + minIv - now)⟩, st)
      else
        (⟨true, none⟩, recordAttempt st key now)
  | none => (⟨true, none⟩, recordAttempt st key now)

/-! ## Fetch Orchestrator model

Modelled from the spec: the orchestrator (`backend/app/routers/fetch.py`
and the fetch services) is referenced by the repository's handoff notes
but is not among the checked-in sources; the definitions below follow
spec §4.1 and §7.  A recoverable per-source failure (network, parse, or
persistence error) is captured as that source's outcome and never
propagates to sibling sources. -/

inductive FetchError where
  | networkError
  | parseError
  | persistenceError
  deriving Repr, DecidableEq

structure SourceCfg where
  id : Nat
  user_id : Nat
  active : Bool
  deriving Repr, DecidableEq

inductive SourceOutcome where
  | succeeded (added duplicated : Nat)
  | failed (e : FetchError)
  deriving Repr, DecidableEq

def SourceOutcome.isFailed : SourceOutcome → Bool
  | .failed _ => true
  | .succeeded _ _ => false

structure FetchReport where
  attempted : Nat
  succeededCount : Nat
  failedCount : Nat
  outcomes : List (Nat × SourceOutcome)
  deriving Repr, DecidableEq

/-- Modelled from the spec: one source's strictly sequential pipeline
attempt; a recoverable failure becomes a `failed` outcome instead of an
exception. The per-source fetch behaviour (network, parsing, persistence)
is external, so it enters as the parameter `fetch`. -/
def attemptSource (fetch : SourceCfg → Except FetchError (Nat × Nat))
    (s : SourceCfg) : SourceOutcome :=
  match fetch s with
  | .ok (a, d) => .succeeded a d
  | .error e => .failed e

/-- Modelled from the spec: `RunAll()` attempts each source independently,
isolates failures, and returns an aggregate `FetchReport`. -/
def runAll (fetch : SourceCfg → Except FetchError (Nat × Nat))
    (sources : List SourceCfg) : FetchReport :=
  let outs := sources.map (fun s => (s.id, attemptSource fetch s))
  { attempted := sources.length
  , succeededCount := (outs.filter (fun p => !(p.2.isFailed))).length
  , failedCount := (outs.filter (fun p => p.2.isFailed)).length
  , outcomes := outs }

/-! ## RunOne and the cancellation frame

Modelled from the spec: `RunOne(sourceId)` gates on the rate limiter,
runs the source's pipeline, and on successful or definitively failed,
non-cancelled completion updates the source's last-fetch timestamp in the
external registry; a cancelled attempt leaves both the registry timestamp
and the rate limiter's timestamp untouched (spec §4.1 and §5). The
in-flight result of the network part is external and enters as the
parameter `result`. -/

inductive RunResult where
  | success (added duplicated : Nat)
  | failure (e : FetchError)
  | cancelled
  deriving Repr, DecidableEq

inductive RunOneOutcome where
  | done (o : SourceOutcome)
  | rateLimited (retryAfter : Nat)
  | cancelled
  deriving Repr, DecidableEq

structure PipelineState where
  registry : List (Nat × Option Nat)
  rl : RateLimitState
  deriving Repr, DecidableEq

/-- Registry read: the last-fetch timestamp column of source `sid`
(`none` when the source is not registered). -/
def lastFetched (ps : PipelineState) (sid : Nat) : Option (Option Nat) :=
  (ps.registry.find? (fun p => p.1 == sid)).map Prod.snd

/-- Registry write: `UpdateLastFetched(sourceId, timestamp)`. -/
def updateLastFetched (ps : PipelineState) (sid : Nat) (now : Nat) :
    PipelineState :=
  { ps with registry :=
      ps.registry.map (fun p => if p.1 == sid then (p.1, some now) else p) }

def runOne (minIv : Nat) (ps : PipelineState) (s : SourceCfg) (now : Nat)
    (result : RunResult) : PipelineState × RunOneOutcome :=
  match allow minIv ps.rl (toString s.id) now with
  | (⟨false, retry⟩, _) => (ps, .rateLimited (retry.getD 0))
  | (⟨true, _⟩, rl1) =>
      match result with
      | .cancelled => (ps, .cancelled)
      | .success a d =>
          ({ updateLastFetched ps s.id now with rl := rl1 },
           .done (.succeeded a d))
      | .failure e =>
          ({ updateLastFetched ps s.id now with rl := rl1 },
           .done (.failed e))

/-! ## Syndication-feed entry cap

Modelled from the spec: the syndication-feed fetcher
(`backend/app/services/rss_fetcher.py`, not among the checked-in sources)
enforces a maximum entry count per fetch, a policy constant with default
100 (spec §4.2). -/

def MAX_ENTRIES_PER_FETCH : Nat := 100

structure FeedEntry where
  title : String
  link : String
  author : Option String
  summary : Option String
  deriving Repr, DecidableEq

/-- Modelled from the spec: the candidate entries produced by one
syndication-feed fetch are the first `cap` entries of the feed. -/
def candidateEntries (cap : Nat) (entries : List FeedEntry) :
    List FeedEntry :=
  entries.take cap

/-! ## Community-feed name validation

Modelled from the spec: the community-feed fetcher's name validation
(`backend/app/schemas/source.py` / `reddit_fetcher.py`, not among the
checked-in sources) accepts names of 3–21 characters consisting of
alphanumerics and underscores (spec §4.3). -/

def isValidCommunityName (s : String) : Bool :=
  3 ≤ s.length && s.length ≤ 21 && s.data.all (fun c => c.isAlphanum || c == '_')

/-! ## Concrete fixtures used by witnesses -/

def exRow1 : ArticleRow :=
  ⟨1, none, 7, "Post", none, some "https://example.com/a", none⟩

def exRow2 : ArticleRow :=
  ⟨2, none, 7, "Post again", none, some "https://example.com/a", none⟩

def exRowNull1 : ArticleRow := ⟨3, none, 7, "Note", none, none, none⟩

def exRowNull2 : ArticleRow := ⟨4, none, 7, "Note 2", none, none, none⟩

def exMatches (r : ArticleRow) : Bool := r.content.isSome

def exRank (r : ArticleRow) : Int := Int.ofNat r.id

def exTable : List ArticleRow :=
  [⟨1, none, 7, "A", some "x", some "https://a", none⟩,
   ⟨2, none, 8, "B", some "y", some "https://b", none⟩,
   ⟨3, none, 7, "C", none, some "https://c", none⟩]

def resolvePublic (h : String) : List Nat := [ipv4 93 184 216 34]

def resolvePrivate (h : String) : List Nat := [ipv4 192 168 0 1]

def resolveMetadata (h : String) : List Nat := [ipv4 169 254 169 254]

def exTargetHttps : UrlTarget := ⟨"https", "example.com"⟩

def exTargetFile : UrlTarget := ⟨"file", "example.com"⟩

def exFetch (s : SourceCfg) : Except FetchError (Nat × Nat) :=
  if s.id == 3 then .error .networkError else .ok (1, 0)

def exSources : List SourceCfg :=
  [⟨1, 7, true⟩, ⟨2, 7, true⟩, ⟨3, 7, true⟩, ⟨4, 8, true⟩, ⟨5, 8, true⟩]

def exPipelineState : PipelineState :=
  ⟨[(1, some 50), (2, none)], ⟨[("1", 10)]⟩⟩

def exSource1 : SourceCfg := ⟨1, 7, true⟩

def exFeedEntry : FeedEntry := ⟨"t", "https://example.com/e", none, none⟩

lemma urlConflict_iff (a b : ArticleRow) :
    urlConflict a b = true ↔
      (a.user_id = b.user_id ∧ a.url.isSome ∧ a.url = b.url) := by
  unfold urlConflict
  simp [Bool.and_assoc]

lemma keyPred_eq (a : ArticleRow) (uid : Nat) (u : String) :
    (a.user_id == uid && a.url == some u) = true ↔
      (a.user_id = uid ∧ a.url = some u) := by
  simp

lemma urlConflict_of_key {a b : ArticleRow} {uid : Nat} {u : String}
    (ha : a.user_id = uid ∧ a.url = some u)
    (hb : b.user_id = uid ∧ b.url = some u) :
    urlConflict a b = true := by
  rw [urlConflict_iff]
  refine ⟨ha.1.trans hb.1.symm, ?_, ha.2.trans hb.2.symm⟩
  rw [ha.2]; rfl

lemma urlConflict_symm_false {a b : ArticleRow}
    (h : urlConflict a b = false) : urlConflict b a = false := by
  rw [Bool.eq_false_iff] at h ⊢
  intro hba
  apply h
  rw [urlConflict_iff] at hba ⊢
  refine ⟨hba.1.symm, ?_, hba.2.2.symm⟩
  rw [hba.2.2.symm]
  exact hba.2.1

lemma countKey_le_one_of_invariant (table : List ArticleRow)
    (h : articlesInvariant table) (uid : Nat) (u : String) :
    countKey table uid u ≤ 1 := by
  unfold countKey
  induction table with
  | nil => simp
  | cons a rest ih =>
    rw [articlesInvariant, List.pairwise_cons] at h
    by_cases hk : (a.user_id == uid && a.url == some u) = true
    · rw [List.filter_cons, if_pos hk]
      have hrest : rest.filter (fun r => r.user_id == uid && r.url == some u) = [] := by
        rw [List.filter_eq_nil_iff]
        intro b hb hbk
        have hconf : urlConflict a b = true :=
          urlConflict_of_key ((keyPred_eq a uid u).mp hk) ((keyPred_eq b uid u).mp hbk)
        rw [h.1 b hb] at hconf
        exact Bool.false_ne_true hconf
      rw [hrest]
      simp
    · rw [List.filter_cons, if_neg hk]
      exact ih h.2

lemma insertArticle_preserves_invariant (table : List ArticleRow)
    (a : ArticleRow) (h : articlesInvariant table) :
    articlesInvariant (insertArticle table a).1 := by
  unfold insertArticle
  by_cases hc : table.any (fun b => urlConflict a b) = true
  · rw [if_pos hc]; exact h
  · rw [if_neg hc]
    rw [articlesInvariant, List.pairwise_append]
    refine ⟨h, by simp [List.pairwise_cons], ?_⟩
    intro b hb c hc'
    rw [List.mem_singleton] at hc'
    rw [hc']
    have hall : urlConflict a b = false :=
      Bool.eq_false_iff.mpr (List.any_eq_false.mp (Bool.eq_false_iff.mpr hc) b hb)
    exact urlConflict_symm_false hall

lemma insertAll_preserves_invariant (table : List ArticleRow)
    (as : List ArticleRow) (h : articlesInvariant table) :
    articlesInvariant (insertAll table as) := by
  induction as generalizing table with
  | nil => simpa [insertAll]
  | cons a rest ih =>
    rw [insertAll, List.foldl_cons]
    exact ih _ (insertArticle_preserves_invariant table a h)

lemma countKey_insertArticle_pos (table : List ArticleRow)
    (a : ArticleRow) (uid : Nat) (u : String)
    (ha : a.user_id = uid ∧ a.url = some u) :
    1 ≤ countKey (insertArticle table a).1 uid u ∨
      1 ≤ countKey table uid u := by
  unfold insertArticle
  by_cases hc : table.any (fun b => urlConflict a b) = true
  · -- the conflicting stored row must carry the same key
    right
    obtain ⟨b, hb, hconf⟩ := List.any_eq_true.mp hc
    rw [urlConflict_iff] at hconf
    have hbu : b.user_id = uid := by rw [← hconf.1]; exact ha.1
    have hbl : b.url = some u := by rw [← hconf.2.2]; exact ha.2
    unfold countKey
    have hmem : b ∈ table.filter (fun r => r.user_id == uid && r.url == some u) := by
      rw [List.mem_filter]
      exact ⟨hb, by simp [hbu, hbl]⟩
    exact List.length_pos.mpr (List.ne_nil_of_mem hmem)
  · left
    rw [if_neg hc]
    unfold countKey
    rw [List.filter_append]
    simp [ha.1, ha.2]

lemma countKey_mono_insertArticle (table : List ArticleRow)
    (a : ArticleRow) (uid : Nat) (u : String) :
    countKey table uid u ≤ countKey (insertArticle table a).1 uid u := by
  unfold insertArticle
  by_cases hc : table.any (fun b => urlConflict a b) = true
  · rw [if_pos hc]
  · rw [if_neg hc]
    unfold countKey
    rw [List.filter_append]
    simp

lemma countKey_mono_insertAll (table : List ArticleRow)
    (as : List ArticleRow) (uid : Nat) (u : String) :
    countKey table uid u ≤ countKey (insertAll table as) uid u := by
  induction as generalizing table with
  | nil => simp [insertAll]
  | cons a rest ih =>
    rw [insertAll, List.foldl_cons]
    exact le_trans (countKey_mono_insertArticle table a uid u) (ih _)

lemma countKey_insertAll_pos (table : List ArticleRow)
    (as : List ArticleRow) (uid : Nat) (u : String)
    (hmem : ∃ a ∈ as, a.user_id = uid ∧ a.url = some u) :
    1 ≤ countKey (insertAll table as) uid u ∨ 1 ≤ countKey table uid u := by
  induction as generalizing table with
  | nil => simp at hmem
  | cons a rest ih =>
    rw [insertAll, List.foldl_cons]
    obtain ⟨b, hb, hkey⟩ := hmem
    rcases List.mem_cons.mp hb with hba | hbrest
    · subst hba
      rcases countKey_insertArticle_pos table b uid u hkey with h1 | h0
      · left
        exact le_trans h1 (countKey_mono_insertAll _ rest uid u)
      · right; exact h0
    · rcases ih (insertArticle table a).1 ⟨b, hbrest, hkey⟩ with h1 | h0
      · left; exact h1
      · left
        exact le_trans h0 (countKey_mono_insertAll _ rest uid u)

lemma insertArticle_none_url (t : List ArticleRow) (a : ArticleRow)
    (h : a.url = none) : insertArticle t a = (t ++ [a], .inserted) := by
  unfold insertArticle
  have hany : t.any (fun b => urlConflict a b) = false := by
    rw [List.any_eq_false]
    intro b _
    rw [Bool.not_eq_true, Bool.eq_false_iff]
    intro hx
    rw [urlConflict_iff] at hx
    rw [h] at hx
    exact absurd hx.2.1 (by simp)
  rw [hany]
  simp

lemma insertAll_none_url (t : List ArticleRow) (as : List ArticleRow)
    (h : ∀ a ∈ as, a.url = none) : insertAll t as = t ++ as := by
  induction as generalizing t with
  | nil => simp [insertAll]
  | cons a rest ih =>
    rw [insertAll, List.foldl_cons]
    rw [insertArticle_none_url t a (h a (List.mem_cons_self a rest))]
    have := ih (t ++ [a]) (fun b hb => h b (List.mem_cons_of_mem a hb))
    rw [insertAll] at this
    rw [this, List.append_assoc]
    rfl

lemma search_articles_sublist_filter (matchesQuery : ArticleRow → Bool)
    (rank : ArticleRow → Int) (table : List ArticleRow)
    (uid lim off : Nat) (r : ArticleRow)
    (hr : r ∈ search_articles matchesQuery rank table uid lim off) :
    r ∈ table.filter (fun a => a.user_id == uid && matchesQuery a) := by
  unfold search_articles at hr
  have h1 := (List.take_sublist lim _).subset hr
  have h2 := (List.drop_sublist off _).subset h1
  exact List.mem_mergeSort.mp h2

lemma guardedFetch_eq_of_rejected (rv rc : String → List Nat)
    (t : UrlTarget) (r : String) (hg : ssrfGuard rv t = .rejected r) :
    guardedFetch rv rc t = none := by
  unfold guardedFetch
  rw [hg]

lemma guardedFetch_eq_of_validated (rv rc : String → List Nat)
    (t : UrlTarget) (p : List Nat) (hg : ssrfGuard rv t = .validated p) :
    guardedFetch rv rc t = p.head? := by
  unfold guardedFetch
  rw [hg]
  rfl

lemma lookupKey_recordAttempt (st : RateLimitState) (key : String)
    (now : Nat) : lookupKey (recordAttempt st key now) key = some now := by
  unfold lookupKey recordAttempt
  rw [List.find?_cons_of_pos _ (by simp)]
  rfl

lemma allow_eq_of_none (minIv : Nat) (st : RateLimitState) (key : String)
    (now : Nat) (hl : lookupKey st key = none) :
    allow minIv st key now = (⟨true, none⟩, recordAttempt st key now) := by
  unfold allow
  rw [hl]

lemma allow_eq_of_some (minIv : Nat) (st : RateLimitState) (key : String)
    (now last : Nat) (hl : lookupKey st key = some last) :
    allow minIv st key now =
      if now < last + minIv then (⟨false, some (last + minIv - now)⟩, st)
      else (⟨true, none⟩, recordAttempt st key now) := by
  unfold allow
  rw [hl]

lemma allow_allowed_state (minIv : Nat) (st : RateLimitState) (key : String)
    (now : Nat) (h : ((allow minIv st key now).1).allowed = true) :
    (allow minIv st key now).2 = recordAttempt st key now := by
  cases hl : lookupKey st key with
  | none => rw [allow_eq_of_none minIv st key now hl]
  | some last =>
    rw [allow_eq_of_some minIv st key now last hl] at h ⊢
    by_cases hlt : now < last + minIv
    · rw [if_pos hlt] at h; exact absurd h (by simp)
    · rw [if_neg hlt]

lemma allow_allowed_eligible (minIv : Nat) (st : RateLimitState)
    (key : String) (now : Nat)
    (h : ((allow minIv st key now).1).allowed = true) :
    ∀ last, lookupKey st key = some last → last + minIv ≤ now := by
  intro last hl
  rw [allow_eq_of_some minIv st key now last hl] at h
  by_cases hlt : now < last + minIv
  · rw [if_pos hlt] at h; exact absurd h (by simp)
  · omega

lemma allow_denied_of_recent (minIv : Nat) (st : RateLimitState)
    (key : String) (now last : Nat) (hl : lookupKey st key = some last)
    (hlt : now < last + minIv) :
    allow minIv st key now = (⟨false, some (last + minIv - now)⟩, st) := by
  rw [allow_eq_of_some minIv st key now last hl, if_pos hlt]

lemma allow_admitted_of_eligible (minIv : Nat) (st : RateLimitState)
    (key : String) (now : Nat)
    (h : ∀ last, lookupKey st key = some last → last + minIv ≤ now) :
    allow minIv st key now = (⟨true, none⟩, recordAttempt st key now) := by
  cases hl : lookupKey st key with
  | none => exact allow_eq_of_none minIv st key now hl
  | some last =>
    have := h last hl
    rw [allow_eq_of_some minIv st key now last hl, if_neg (by omega)]

lemma find?_map_setTimestamp (sid now : Nat) (l : List (Nat × Option Nat))
    (h : (l.find? (fun p => p.1 == sid)).isSome = true) :
    (l.map (fun p => if p.1 == sid then (p.1, some now) else p)).find?
        (fun p => p.1 == sid) = some (sid, some now) := by
  induction l with
  | nil => simp at h
  | cons p rest ih =>
    by_cases hp : (p.1 == sid) = true
    · rw [List.map_cons, if_pos hp]
      rw [@List.find?_cons_of_pos (Nat × Option Nat) (fun q => q.1 == sid)
        (p.1, some now)
        (rest.map (fun q => if q.1 == sid then (q.1, some now) else q)) hp]
      have hps : p.1 = sid := by simpa using hp
      rw [hps]
    · rw [List.map_cons, if_neg hp]
      rw [@List.find?_cons_of_neg (Nat × Option Nat) (fun q => q.1 == sid) p
        (rest.map (fun q => if q.1 == sid then (q.1, some now) else q)) hp]
      rw [@List.find?_cons_of_neg (Nat × Option Nat) (fun q => q.1 == sid) p
        rest hp] at h
      exact ih h

lemma lastFetched_updateLastFetched (ps : PipelineState) (sid : Nat)
    (now : Nat) (x : Option Nat) (h : lastFetched ps sid = some x) :
    lastFetched (updateLastFetched ps sid now) sid = some (some now) := by
  unfold lastFetched at h ⊢
  unfold updateLastFetched
  have hsome : (ps.registry.find? (fun p => p.1 == sid)).isSome = true := by
    cases hf : ps.registry.find? (fun p => p.1 == sid) with
    | none => rw [hf] at h; simp at h
    | some q => rfl
  rw [find?_map_setTimestamp sid now ps.registry hsome]
  rfl

lemma runOne_cancelled_eq (minIv : Nat) (ps : PipelineState) (s : SourceCfg)
    (now : Nat)
    (hadm : ((allow minIv ps.rl (toString s.id) now).1).allowed = true) :
    runOne minIv ps s now .cancelled = (ps, .cancelled) := by
  unfold runOne
  cases hx : allow minIv ps.rl (toString s.id) now with
  | mk d rl1 =>
    cases d with
    | mk allowed retry =>
      rw [hx] at hadm
      cases allowed with
      | false => simp at hadm
      | true => rfl

lemma runOne_success_eq (minIv : Nat) (ps : PipelineState) (s : SourceCfg)
    (now a d : Nat)
    (hadm : ((allow minIv ps.rl (toString s.id) now).1).allowed = true) :
    runOne minIv ps s now (.success a d) =
      ({ updateLastFetched ps s.id now with
          rl := (allow minIv ps.rl (toString s.id) now).2 },
        .done (.succeeded a d)) := by
  unfold runOne
  cases hx : allow minIv ps.rl (toString s.id) now with
  | mk dec rl1 =>
    cases dec with
    | mk allowed retry =>
      rw [hx] at hadm
      cases allowed with
      | false => simp at hadm
      | true => rfl

lemma runOne_failure_eq (minIv : Nat) (ps : PipelineState) (s : SourceCfg)
    (now : Nat) (e : FetchError)
    (hadm : ((allow minIv ps.rl (toString s.id) now).1).allowed = true) :
    runOne minIv ps s now (.failure e) =
      ({ updateLastFetched ps s.id now with
          rl := (allow minIv ps.rl (toString s.id) now).2 },
        .done (.failed e)) := by
  unfold runOne
  cases hx : allow minIv ps.rl (toString s.id) now with
  | mk dec rl1 =>
    cases dec with
    | mk allowed retry =>
      rw [hx] at hadm
      cases allowed with
      | false => simp at hadm
      | true => rfl

/-! ## Claim theorems -/

/-- Claim C1: for every owner and every canonical (non-null) URL, at most
one article with that (owner, URL) pair is ever stored.  Any set of insert
attempts — including two concurrent ones — serializes at the storage
boundary into a sequence of atomic `insertArticle` steps; under any such
sequence the `UNIQUE(user_id, url)` invariant is preserved, at most one
row with the key is stored, and exactly one once any attempt carried the
key. -/
theorem articles_owner_url_unique (table : List ArticleRow)
    (hinv : articlesInvariant table) (attempts : List ArticleRow)
    (uid : Nat) (u : String) :
    articlesInvariant (insertAll table attempts) ∧
    countKey (insertAll table attempts) uid u ≤ 1 ∧
    ((∃ a ∈ attempts, a.user_id = uid ∧ a.url = some u) →
      1 ≤ countKey (insertAll table attempts) uid u) := by
  have hinv2 := insertAll_preserves_invariant table attempts hinv
  refine ⟨hinv2, countKey_le_one_of_invariant _ hinv2 uid u, ?_⟩
  intro hmem
  rcases countKey_insertAll_pos table attempts uid u hmem with h1 | h0
  · exact h1
  · exact le_trans h0 (countKey_mono_insertAll table attempts uid u)

/-- Witness for C1: both serialized orders of two insert attempts with the
same (owner, URL) key leave exactly one stored article. -/
theorem articles_owner_url_unique_witness :
    countKey (insertAll [] [exRow1, exRow2]) 7 "https://example.com/a" = 1 ∧
    countKey (insertAll [] [exRow2, exRow1]) 7 "https://example.com/a" = 1 := by
  have h1 := articles_owner_url_unique [] (by decide) [exRow1, exRow2] 7
    "https://example.com/a"
  have h2 := articles_owner_url_unique [] (by decide) [exRow2, exRow1] 7
    "https://example.com/a"
  have h1p := h1.2.2 (by decide)
  have h2p := h2.2.2 (by decide)
  have h1m := h1.2.1
  have h2m := h2.2.1
  omega

/-- Claim C9: the `articles` table permits a null `url`, and
`UNIQUE(user_id, url)` does not restrict null-url rows: any sequence of
null-url inserts succeeds and stores every row. -/
theorem articles_null_url_unrestricted (table : List ArticleRow)
    (as : List ArticleRow) (h : ∀ a ∈ as, a.url = none) :
    insertAll table as = table ++ as ∧
    ∀ t a, a ∈ as → (insertArticle t a).2 = InsertResult.inserted := by
  refine ⟨insertAll_none_url table as h, ?_⟩
  intro t a ha
  rw [insertArticle_none_url t a (h a ha)]

/-- Witness for C9: two null-url articles of the same owner are both
stored. -/
theorem articles_null_url_unrestricted_witness :
    insertAll [] [exRowNull1, exRowNull2] = [exRowNull1, exRowNull2] ∧
    (insertArticle [exRowNull1] exRowNull2).2 = InsertResult.inserted := by
  have h := articles_null_url_unrestricted [] [exRowNull1, exRowNull2]
    (by decide)
  exact ⟨h.1, h.2 [exRowNull1] exRowNull2 (by decide)⟩

/-- Claim C10: every row returned by `search_articles` belongs to the
given owner, matches the query, the rows are ordered by rank descending,
and at most `p_limit` rows are returned. -/
theorem search_articles_spec (matchesQuery : ArticleRow → Bool)
    (rank : ArticleRow → Int) (table : List ArticleRow)
    (p_user_id p_limit p_offset : Nat) :
    (∀ r ∈ search_articles matchesQuery rank table p_user_id p_limit p_offset,
      r.user_id = p_user_id) ∧
    (∀ r ∈ search_articles matchesQuery rank table p_user_id p_limit p_offset,
      matchesQuery r = true) ∧
    List.Pairwise (fun a b => rank b ≤ rank a)
      (search_articles matchesQuery rank table p_user_id p_limit p_offset) ∧
    (search_articles matchesQuery rank table p_user_id p_limit p_offset).length
      ≤ p_limit := by
  refine ⟨?_, ?_, ?_, ?_⟩
  · intro r hr
    have hmem := List.mem_filter.mp
      (search_articles_sublist_filter matchesQuery rank table p_user_id
        p_limit p_offset r hr)
    have hp := hmem.2
    simp only [Bool.and_eq_true, beq_iff_eq] at hp
    exact hp.1
  · intro r hr
    have hmem := List.mem_filter.mp
      (search_articles_sublist_filter matchesQuery rank table p_user_id
        p_limit p_offset r hr)
    have hp := hmem.2
    simp only [Bool.and_eq_true, beq_iff_eq] at hp
    exact hp.2
  · unfold search_articles
    apply List.Pairwise.sublist (List.take_sublist _ _)
    apply List.Pairwise.sublist (List.drop_sublist _ _)
    refine List.Pairwise.imp ?_
      (List.sorted_mergeSort ?_ ?_
        (table.filter (fun a => a.user_id == p_user_id && matchesQuery a)))
    · intro a b hab
      simpa using hab
    · intro a b c hab hbc
      simp only [decide_eq_true_eq] at hab hbc ⊢
      omega
    · intro a b
      simp only [Bool.or_eq_true, decide_eq_true_eq]
      omega
  · unfold search_articles
    rw [List.length_take]
    exact min_le_left _ _

/-- Witness for C10 at a concrete table, query predicate and rank. -/
theorem search_articles_spec_witness :
    (search_articles exMatches exRank exTable 7 2 0).length ≤ 2 ∧
    (∀ r ∈ search_articles exMatches exRank exTable 7 2 0, r.user_id = 7) ∧
    (∀ r ∈ search_articles exMatches exRank exTable 7 2 0,
      exMatches r = true) :=
  ⟨(search_articles_spec exMatches exRank exTable 7 2 0).2.2.2,
   (search_articles_spec exMatches exRank exTable 7 2 0).1,
   (search_articles_spec exMatches exRank exTable 7 2 0).2.1⟩

/-- Claim C2: the SSRF Guard rejects any target whose scheme is not a
permitted web-transfer scheme, and any target whose hostname resolves to
an address in a private, loopback, link-local, or cloud-metadata range;
in every such case the result is a rejection, never a validation. -/
theorem ssrf_guard_rejects (resolve : String → List Nat) (t : UrlTarget)
    (h : allowedSchemes.contains t.scheme = false ∨
      ∃ ip ∈ resolve t.host, isBlockedIp ip = true) :
    (∃ reason, ssrfGuard resolve t = .rejected reason) ∧
    ∀ pinned, ssrfGuard resolve t ≠ .validated pinned := by
  have hrej : ∃ reason, ssrfGuard resolve t = .rejected reason := by
    unfold ssrfGuard
    rcases h with h | h
    · rw [if_neg (by rw [h]; exact Bool.false_ne_true)]
      exact ⟨_, rfl⟩
    · by_cases hs : allowedSchemes.contains t.scheme = true
      · have hany : (resolve t.host).any isBlockedIp = true := by
          rw [List.any_eq_true]
          obtain ⟨ip, hip, hb⟩ := h
          exact ⟨ip, hip, hb⟩
        rw [if_pos hs, if_pos hany]
        exact ⟨_, rfl⟩
      · rw [if_neg hs]
        exact ⟨_, rfl⟩
  refine ⟨hrej, ?_⟩
  intro pinned hcon
  obtain ⟨reason, hr⟩ := hrej
  rw [hcon] at hr
  exact GuardResult.noConfusion hr

/-- Witness for C2: a target resolving to the cloud-metadata address is
rejected, and a `file://` target is rejected for its scheme. -/
theorem ssrf_guard_rejects_witness :
    ((∃ reason, ssrfGuard resolveMetadata exTargetHttps = .rejected reason) ∧
      ∀ pinned, ssrfGuard resolveMetadata exTargetHttps ≠ .validated pinned) ∧
    ((∃ reason, ssrfGuard resolvePublic exTargetFile = .rejected reason) ∧
      ∀ pinned, ssrfGuard resolvePublic exTargetFile ≠ .validated pinned) :=
  ⟨ssrf_guard_rejects resolveMetadata exTargetHttps (Or.inr (by decide)),
   ssrf_guard_rejects resolvePublic exTargetFile (Or.inl (by decide))⟩

/-- Claim C3: the address used for the network connection of a validated
fetch is drawn from the address set pinned at validation time, and does
not depend on any DNS answer given after validation: for any two
post-validation resolvers the connection target is identical. -/
theorem pinned_address_used (resolveAtValidation r2 r2' : String → List Nat)
    (t : UrlTarget) :
    guardedFetch resolveAtValidation r2 t
      = guardedFetch resolveAtValidation r2' t ∧
    ∀ addr, guardedFetch resolveAtValidation r2 t = some addr →
      ∃ pinned, ssrfGuard resolveAtValidation t = .validated pinned ∧
        addr ∈ pinned := by
  constructor
  · cases hg : ssrfGuard resolveAtValidation t with
    | rejected r =>
      rw [guardedFetch_eq_of_rejected resolveAtValidation r2 t r hg,
        guardedFetch_eq_of_rejected resolveAtValidation r2' t r hg]
    | validated p =>
      rw [guardedFetch_eq_of_validated resolveAtValidation r2 t p hg,
        guardedFetch_eq_of_validated resolveAtValidation r2' t p hg]
  · intro addr haddr
    cases hg : ssrfGuard resolveAtValidation t with
    | rejected r =>
      rw [guardedFetch_eq_of_rejected resolveAtValidation r2 t r hg] at haddr
      exact Option.noConfusion haddr
    | validated p =>
      rw [guardedFetch_eq_of_validated resolveAtValidation r2 t p hg] at haddr
      exact ⟨p, rfl, List.mem_of_mem_head? (Option.mem_def.mpr haddr)⟩

/-- Witness for C3: a simulated DNS rebinding — validation saw a public
address; whether the post-validation resolver answers private or public,
the connection address is the same pinned public address. -/
theorem pinned_address_used_witness :
    guardedFetch resolvePublic resolvePrivate exTargetHttps
      = guardedFetch resolvePublic resolvePublic exTargetHttps ∧
    ∃ pinned, ssrfGuard resolvePublic exTargetHttps = .validated pinned ∧
      ipv4 93 184 216 34 ∈ pinned :=
  ⟨(pinned_address_used resolvePublic resolvePrivate resolvePublic
      exTargetHttps).1,
   (pinned_address_used resolvePublic resolvePrivate resolvePublic
      exTargetHttps).2 (ipv4 93 184 216 34) (by decide)⟩

/-- Claim C4: two fetch attempts on the same rate-limiter key within the
configured minimum interval admit exactly one attempt, in either
serialization order of the two (concurrent) `Allow` calls; the first
admits and atomically records its timestamp, the second is denied with a
retry-after computed from the configured minimum interval. -/
theorem rate_limiter_exactly_one (minIv : Nat) (st : RateLimitState)
    (key : String) (t1 t2 : Nat)
    (hadm : ((allow minIv st key t1).1).allowed = true)
    (h12 : t1 ≤ t2) (hwin : t2 < t1 + minIv) :
    (((allow minIv (allow minIv st key t1).2 key t2).1).allowed = false ∧
     ((allow minIv (allow minIv st key t1).2 key t2).1).retryAfter
        = some (t1 + minIv - t2) ∧
     (allow minIv (allow minIv st key t1).2 key t2).2
        = (allow minIv st key t1).2 ∧
     lookupKey (allow minIv st key t1).2 key = some t1) ∧
    (((allow minIv st key t2).1).allowed = true ∧
     ((allow minIv (allow minIv st key t2).2 key t1).1).allowed = false) := by
  have hst1 : (allow minIv st key t1).2 = recordAttempt st key t1 :=
    allow_allowed_state minIv st key t1 hadm
  have hlk1 : lookupKey (allow minIv st key t1).2 key = some t1 := by
    rw [hst1]
    exact lookupKey_recordAttempt st key t1
  have hden := allow_denied_of_recent minIv (allow minIv st key t1).2 key
    t2 t1 hlk1 hwin
  have hel := allow_allowed_eligible minIv st key t1 hadm
  have hadm2 : allow minIv st key t2 = (⟨true, none⟩, recordAttempt st key t2) :=
    allow_admitted_of_eligible minIv st key t2
      (fun last hl => le_trans (hel last hl) h12)
  have hlk2 : lookupKey (allow minIv st key t2).2 key = some t2 := by
    rw [hadm2]
    exact lookupKey_recordAttempt st key t2
  have hden2 := allow_denied_of_recent minIv (allow minIv st key t2).2 key
    t1 t2 hlk2 (by omega)
  refine ⟨⟨?_, ?_, ?_, hlk1⟩, ?_, ?_⟩
  · rw [hden]
  · rw [hden]
  · rw [hden]
  · rw [hadm2]
  · rw [hden2]

/-- Witness for C4: with a 60-unit minimum interval, attempts at times
100 and 130 on the same key admit exactly the first; the second gets a
retry-after of 30. -/
theorem rate_limiter_exactly_one_witness :
    ((allow 60 (allow 60 ⟨[]⟩ "rss:1" 100).2 "rss:1" 130).1).allowed = false ∧
    ((allow 60 (allow 60 ⟨[]⟩ "rss:1" 100).2 "rss:1" 130).1).retryAfter
      = some 30 ∧
    ((allow 60 ⟨[]⟩ "rss:1" 100).1).allowed = true := by
  have h := rate_limiter_exactly_one 60 ⟨[]⟩ "rss:1" 100 130 (by decide)
    (by decide) (by decide)
  exact ⟨h.1.1, by rw [h.1.2.1], by decide⟩

/-- Claim C5: `RunAll` attempts every source in the batch; a recoverable
failure of one source never aborts or cancels the others — the run
completes with an aggregate report in which the failing source shows a
failed outcome and every other source shows its own outcome, and one
source's recorded outcome depends only on its own fetch behaviour. -/
theorem runAll_isolates_failures
    (fetch : SourceCfg → Except FetchError (Nat × Nat))
    (sources : List SourceCfg) :
    (runAll fetch sources).attempted = sources.length ∧
    (runAll fetch sources).outcomes
      = sources.map (fun s => (s.id, attemptSource fetch s)) ∧
    (∀ s ∈ sources,
      (s.id, attemptSource fetch s) ∈ (runAll fetch sources).outcomes) ∧
    (∀ s ∈ sources, ∀ e, fetch s = .error e →
      (s.id, SourceOutcome.failed e) ∈ (runAll fetch sources).outcomes) ∧
    (∀ g : SourceCfg → Except FetchError (Nat × Nat), ∀ s ∈ sources,
      fetch s = g s → attemptSource fetch s = attemptSource g s) := by
  have houts : (runAll fetch sources).outcomes
      = sources.map (fun s => (s.id, attemptSource fetch s)) := rfl
  refine ⟨rfl, houts, ?_, ?_, ?_⟩
  · intro s hs
    rw [houts]
    exact List.mem_map.mpr ⟨s, hs, rfl⟩
  · intro s hs e he
    have hatt : attemptSource fetch s = .failed e := by
      unfold attemptSource
      rw [he]
    rw [houts]
    exact List.mem_map.mpr ⟨s, hs, by rw [hatt]⟩
  · intro g s hs hfg
    unfold attemptSource
    rw [hfg]

/-- Witness for C5: the spec's batch of five where source #3 raises a
network error — the run completes, #1, #2, #4, #5 succeed and #3 fails. -/
theorem runAll_isolates_failures_witness :
    (runAll exFetch exSources).attempted = 5 ∧
    (runAll exFetch exSources).outcomes =
      [(1, .succeeded 1 0), (2, .succeeded 1 0),
       (3, .failed .networkError),
       (4, .succeeded 1 0), (5, .succeeded 1 0)] ∧
    (3, SourceOutcome.failed .networkError) ∈ (runAll exFetch exSources).outcomes := by
  have h := runAll_isolates_failures exFetch exSources
  refine ⟨h.1, ?_, ?_⟩
  · rw [h.2.1]
    rfl
  · exact h.2.2.2.1 ⟨3, 7, true⟩ (by decide) .networkError rfl

/-- Claim C6: a cancelled `RunOne` leaves both the source's last-fetch
timestamp in the registry and the rate limiter's last-attempt timestamp
unchanged; the last-fetch timestamp is updated (to the attempt time) only
on successful or definitively failed, non-cancelled completion. -/
theorem cancelled_runOne_frame (minIv : Nat) (ps : PipelineState)
    (s : SourceCfg) (now : Nat)
    (hadm : ((allow minIv ps.rl (toString s.id) now).1).allowed = true) :
    (runOne minIv ps s now .cancelled).1 = ps ∧
    lastFetched (runOne minIv ps s now .cancelled).1 s.id
      = lastFetched ps s.id ∧
    lookupKey ((runOne minIv ps s now .cancelled).1).rl (toString s.id)
      = lookupKey ps.rl (toString s.id) ∧
    (∀ a d x, lastFetched ps s.id = some x →
      lastFetched (runOne minIv ps s now (.success a d)).1 s.id
        = some (some now)) ∧
    (∀ e x, lastFetched ps s.id = some x →
      lastFetched (runOne minIv ps s now (.failure e)).1 s.id
        = some (some now)) := by
  have hc := runOne_cancelled_eq minIv ps s now hadm
  refine ⟨by rw [hc], by rw [hc], by rw [hc], ?_, ?_⟩
  · intro a d x hx
    rw [runOne_success_eq minIv ps s now a d hadm]
    exact lastFetched_updateLastFetched ps s.id now x hx
  · intro e x hx
    rw [runOne_failure_eq minIv ps s now e hadm]
    exact lastFetched_updateLastFetched ps s.id now x hx

/-- Witness for C6: a registered source with a prior last-fetch timestamp;
the cancelled attempt changes nothing, the completed ones set the
timestamp. -/
theorem cancelled_runOne_frame_witness :
    (runOne 60 exPipelineState exSource1 200 .cancelled).1
      = exPipelineState ∧
    lastFetched (runOne 60 exPipelineState exSource1 200 .cancelled).1 1
      = lastFetched exPipelineState 1 ∧
    lastFetched (runOne 60 exPipelineState exSource1 200 (.success 2 1)).1 1
      = some (some 200) := by
  have h := cancelled_runOne_frame 60 exPipelineState exSource1 200 (by decide)
  exact ⟨h.1, h.2.1, h.2.2.2.1 2 1 (some 50) (by decide)⟩

/-- Claim C7: a syndication-feed fetch produces at most the configured
maximum entry count of candidates; the policy constant defaults to 100,
so a 250-entry feed yields exactly the 100-entry cap. -/
theorem feed_entry_cap (cap : Nat) (entries : List FeedEntry) :
    (candidateEntries cap entries).length ≤ cap ∧
    MAX_ENTRIES_PER_FETCH = 100 ∧
    (candidateEntries MAX_ENTRIES_PER_FETCH
        (List.replicate 250 exFeedEntry)).length = MAX_ENTRIES_PER_FETCH := by
  refine ⟨?_, rfl, ?_⟩
  · unfold candidateEntries
    rw [List.length_take]
    exact min_le_left _ _
  · unfold candidateEntries
    rw [List.length_take, List.length_replicate]
    rfl

/-- Claim C8: community-name validation accepts a name exactly when it is
3 to 21 characters of alphanumerics and underscores; a 2-character name
is rejected, a 12-character name with underscores is accepted, a
22-character name is rejected. -/
theorem community_name_validation (s : String) :
    (isValidCommunityName s = true ↔
      (3 ≤ s.length ∧ s.length ≤ 21 ∧
        ∀ c ∈ s.data, (c.isAlphanum = true ∨ c = '_'))) ∧
    isValidCommunityName "ab" = false ∧
    isValidCommunityName "dev_ops_news" = true ∧
    isValidCommunityName "abcdefghijklmnopqrstuv" = false := by
  refine ⟨?_, by decide, by decide, by decide⟩
  unfold isValidCommunityName
  constructor
  · intro h
    simp only [Bool.and_eq_true, decide_eq_true_eq, List.all_eq_true,
      Bool.or_eq_true, beq_iff_eq] at h
    exact ⟨h.1.1, h.1.2, h.2⟩
  · intro h
    simp only [Bool.and_eq_true, decide_eq_true_eq, List.all_eq_true,
      Bool.or_eq_true, beq_iff_eq]
    exact ⟨⟨h.1, h.2.1⟩, h.2.2⟩

/-- Witness for C8 at the three lengths named by the claim. -/
theorem community_name_validation_witness :
    isValidCommunityName "dev_ops_news" = true ∧
    isValidCommunityName "ab" = false ∧
    isValidCommunityName "abcdefghijklmnopqrstuv" = false :=
  ⟨(community_name_validation "dev_ops_news").2.2.1,
   (community_name_validation "ab").2.1,
   (community_name_validation "abcdefghijklmnopqrstuv").2.2.2⟩

end Argos
